import Mathlib

/-!
Verification of the caching and aggregation core of the blog backend
(src/db_conn.py and src/blog.py).

The embedding below models:
- the Point Cache produced by alru_cache(maxsize=56) around get_post_by_id:
  an LRU list of (postId, stored value) pairs, most recently used first,
  where the stored value is an Option Post so that the explicit
  not-found outcome (get_item returning no Item) is itself stored;
- the Query Caches produced by asyncache.cached over cachetools.TTLCache
  around get_posts_by_attr_containing (maxsize=128, ttl=600),
  get_all_posts (maxsize=128, ttl=600) and query_table
  (maxsize=128, ttl=6000): lists of entries carrying an absolute expiry
  time, an entry being expired exactly when expires < now;
- the pure aggregation layer of blog.py: get_all_posts_by_date,
  category_counter, preview_posts, body_markup, truncate_post, latest;
- step relations describing how concurrent requests interleave through
  the two cache wrappers, used to settle the single-flight claim.

External collaborators (the DynamoDB client, markdown2, the HTML word
truncator) are taken as parameters; the functions of the repository are
translated directly from the source.
-/

/-- Author record stored inside a post item (db_conn.add_new_post). -/
structure Author where
  name : String
  email : String
  deriving DecidableEq

/-- A blog post item as stored in the DynamoDB table by add_new_post:
postId, title, body, categories, tags, author, post_thumbnail, date. -/
structure Post where
  postId : String
  title : String
  body : String
  categories : List String
  tags : List String
  author : Author
  post_thumbnail : String
  date : Int
  deriving DecidableEq

/-- Backend failure of the Storage Client (boto3 raising on get_item). -/
inductive BackendError where
  | backendError
  deriving DecidableEq

/-- State of the Point Cache built by alru_cache(maxsize=56) on
get_post_by_id: association list keyed by postId, most recently used
entry first; values include none, the stored not-found outcome. -/
abbrev PointCache := List (String × Option Post)

/-- Model of get_post_by_id (src/db_conn.py, lines 18-27) under
alru_cache(maxsize=56).  The Storage Client point-get
blog_table.get_item(Key=...).get("Item") is the fetch parameter: it
returns some post, none (no Item key in the response), or a backend
error.  Returns (result, cache after the call, whether the Storage
Client was invoked).  On a hit the entry moves to the front (most
recently used); on a successful miss the result, including the explicit
none outcome, is stored at the front and the least recently used
entries beyond 56 are evicted.  Error handling modelled from the spec:
the cache decorator is an external library whose source is not part of
this repository; per the spec a backend failure propagates to the
caller and is not stored. -/
def get_post_by_id (fetch : String → Except BackendError (Option Post))
    (cache : PointCache) (post_id : String) :
    Except BackendError (Option Post) × PointCache × Bool :=
  match cache.find? (fun e => decide (e.1 = post_id)) with
  | some e => (Except.ok e.2, e :: cache.filter (fun x => !(decide (x.1 = post_id))), false)
  | none =>
    match fetch post_id with
    | Except.ok v => (Except.ok v, ((post_id, v) :: cache).take 56, true)
    | Except.error err => (Except.error err, cache, true)

/-- One entry of a cachetools.TTLCache: key, cached value, and the
absolute time at which the entry expires (insertion time + ttl). -/
structure TTLEntry (κ : Type) (α : Type) where
  key : κ
  val : α
  expires : Nat
  deriving DecidableEq

/-- State of a cachetools.TTLCache: entries most recently used first. -/
abbrev TTLCacheState (κ α : Type) := List (TTLEntry κ α)

/-- Storing a value in a TTLCache (setitem): expired entries and any
previous entry for the same key are dropped, the new entry gets expiry
now + ttl and becomes most recently used, and the size bound maxsize is
enforced by evicting from the least recently used end. -/
def ttlStore [DecidableEq κ] (maxsize ttl now : Nat) (cache : TTLCacheState κ α)
    (k : κ) (v : α) : TTLCacheState κ α :=
  (⟨k, v, now + ttl⟩ ::
    cache.filter (fun x => !(decide (x.key = k)) && !(decide (x.expires < now)))).take maxsize

/-- Model of the asyncache.cached wrapper over a cachetools.TTLCache,
as applied to the query functions of src/db_conn.py.  TTLCache treats a
stored entry as expired exactly when expires < now, in which case the
lookup raises KeyError and the wrapper recomputes and stores.  The
compute argument stands for awaiting the wrapped coroutine (the Storage
Client scan or query).  Returns (result, cache after the call, whether
the backend was invoked). -/
def cachedCall [DecidableEq κ] (maxsize ttl now : Nat) (cache : TTLCacheState κ α)
    (k : κ) (compute : α) : α × TTLCacheState κ α × Bool :=
  match cache.find? (fun e => decide (e.key = k)) with
  | some e =>
    if e.expires < now then
      (compute, ttlStore maxsize ttl now cache k compute, true)
    else
      (e.val, e :: cache.filter (fun x => !(decide (x.key = k))), false)
  | none => (compute, ttlStore maxsize ttl now cache k compute, true)

/-- The two list attributes a scan filters on in this code base
("categories" in the categories route, "tags" in the tags route). -/
inductive AttrName where
  | categories
  | tags
  deriving DecidableEq

/-- The list attribute of a post named by an AttrName. -/
def attrOf (a : AttrName) (p : Post) : List String :=
  match a with
  | AttrName.categories => p.categories
  | AttrName.tags => p.tags

/-- Raw response of a DynamoDB scan or query: the callers in
src/blog.py read its Items list. -/
structure DBResponse where
  Items : List Post
  deriving DecidableEq

/-- The Storage Client scan with FilterExpression Attr(attr).contains(value):
posts whose named list attribute contains the value; empty Items when no
post matches. -/
def scanContains (table : List Post) (a : AttrName) (value : String) : DBResponse :=
  ⟨table.filter (fun p => (attrOf a p).contains value)⟩

/-- Model of get_posts_by_attr_containing (src/db_conn.py, lines 30-40):
asyncache.cached with TTLCache(maxsize=128, ttl=600) over the scan,
keyed by the argument pair. -/
def get_posts_by_attr_containing (table : List Post) (now : Nat)
    (cache : TTLCacheState (AttrName × String) DBResponse) (a : AttrName) (value : String) :
    DBResponse × TTLCacheState (AttrName × String) DBResponse × Bool :=
  cachedCall 128 600 now cache (a, value) (scanContains table a value)

/-- The Storage Client full scan: blog_table.scan().get("Items", []),
all posts of the table. -/
def scanItems (table : List Post) : List Post :=
  table

/-- Model of get_all_posts (src/db_conn.py, lines 43-49):
asyncache.cached with TTLCache(maxsize=128, ttl=600) over the full
scan; the function takes no arguments, so the cache key is the empty
tuple. -/
def get_all_posts (table : List Post) (now : Nat)
    (cache : TTLCacheState Unit (List Post)) :
    List Post × TTLCacheState Unit (List Post) × Bool :=
  cachedCall 128 600 now cache () (scanItems table)

/-- The Storage Client key-equality query
blog_table.query(KeyConditionExpression=Key(key).eq(value)); for this
table the key attribute is postId, so the Items list holds the posts
whose postId equals the value when the named key is postId. -/
def keyEquals (table : List Post) (key value : String) : DBResponse :=
  ⟨table.filter (fun p => decide (key = "postId") && decide (p.postId = value))⟩

/-- Model of query_table (src/db_conn.py, lines 52-63):
asyncache.cached with TTLCache(maxsize=128, ttl=6000) over the
key-equality query, keyed by the argument pair. -/
def query_table (table : List Post) (now : Nat)
    (cache : TTLCacheState (String × String) DBResponse) (key value : String) :
    DBResponse × TTLCacheState (String × String) DBResponse × Bool :=
  cachedCall 128 6000 now cache (key, value) (keyEquals table key value)

/-- The whole mutable state of the process: the backing table and the
caches of the four cached functions. -/
structure SystemState where
  table : List Post
  pointCache : PointCache
  attrCache : TTLCacheState (AttrName × String) DBResponse
  allPostsCache : TTLCacheState Unit (List Post)
  queryCache : TTLCacheState (String × String) DBResponse

/-- DynamoDB put_item: writes the item, replacing any existing item
with the same key. -/
def putItem (table : List Post) (item : Post) : List Post :=
  item :: table.filter (fun p => !(decide (p.postId = item.postId)))

/-- Model of add_new_post (src/db_conn.py, lines 66-104): builds the
full item with date set to the current time int(time.time()) and writes
it with put_item.  The function touches no cache.  Returns the new
state and the written item. -/
def add_new_post (s : SystemState) (now : Int) (post_id title body : String)
    (categories tags : List String)
    (post_thumbnail author_name author_email : String) : SystemState × Post :=
  let item : Post :=
    { postId := post_id, title := title, body := body, categories := categories,
      tags := tags, author := { name := author_name, email := author_email },
      post_thumbnail := post_thumbnail, date := now }
  ({ s with table := putItem s.table item }, item)

/-- Model of markup (src/blog.py, lines 23-37): a body that starts with
a markup delimiter is already HTML and passes through, otherwise the
external markdown renderer (markdown2.markdown, the render parameter)
converts it.  The markup_ flag only wraps the same text in quart.Markup,
which does not change the text, so it does not affect the result. -/
def markup (render : String → String) (s : String) (markup_ : Bool) : String :=
  if s.startsWith "<" then s else render s

/-- Model of body_markup (src/blog.py, lines 40-47): the post dict with
only the body replaced by its rendered form. -/
def body_markup (render : String → String) (post : Post) (markup_ : Bool) : Post :=
  { post with body := markup render post.body markup_ }

/-- Model of truncate_post (src/blog.py, lines 50-57): the post dict
with only the body replaced by its truncation to the given word budget
(the source default is 85 words); truncate_html_words is the external
truncator from utils.django_utils. -/
def truncate_post (truncate_html_words : String → Nat → String)
    (post : Post) (words : Nat) : Post :=
  { post with body := truncate_html_words post.body words }

/-- Model of preview_posts (src/blog.py, lines 60-70): the first
num_posts posts (the source default is 3), each rendered with
body_markup(x, False) and then truncated with truncate_post at its
default word budget of 85. -/
def preview_posts (render : String → String)
    (truncate_html_words : String → Nat → String)
    (posts : List Post) (num_posts : Nat) : List Post :=
  ((posts.take num_posts).map (fun x => body_markup render x false)).map
    (fun x => truncate_post truncate_html_words x 85)

/-- The flattening step of category_counter:
reduce(lambda x, y: x + y["categories"], d, []). -/
def flatten_categories (d : List Post) : List String :=
  d.foldl (fun x y => x ++ y.categories) []

/-- One step of collections.Counter fed with one more element: an
existing key has its count incremented in place, a new key is appended
with count 1; dict order is insertion order, so the key order is first
appearance order. -/
def counterAdd (acc : List (String × Nat)) (s : String) : List (String × Nat) :=
  if acc.any (fun e => decide (e.1 = s)) then
    acc.map (fun e => if e.1 = s then (e.1, e.2 + 1) else e)
  else
    acc ++ [(s, 1)]

/-- Counter(l).items() as an ordered association list. -/
def counterItems (l : List String) : List (String × Nat) :=
  l.foldl counterAdd []

/-- Model of category_counter (src/blog.py, lines 73-75):
Counter(reduce(lambda x, y: x + y["categories"], d, [])) rendered as
the list of "name"/"count" pairs in dict order. -/
def category_counter (d : List Post) : List (String × Nat) :=
  counterItems (flatten_categories d)

/-- Descending date order used by get_all_posts_by_date: x may come
before y when y.date is at most x.date. -/
def dateDesc (x y : Post) : Bool :=
  decide (y.date ≤ x.date)

/-- Model of get_all_posts_by_date (src/blog.py, lines 78-79):
sorted(posts, key=lambda x: x["date"], reverse=True).  The Python sort
is stable, and sorted with reverse=True keeps elements with equal keys
in their original order, which is exactly a stable merge sort under
dateDesc; the posts argument stands for the list returned by
db_conn.get_all_posts. -/
def get_all_posts_by_date (posts : List Post) : List Post :=
  posts.mergeSort dateDesc

/-- Outcome of a route handler as far as the claims are concerned:
either a redirect to a location or the explicit 404 outcome raised by
quart.abort(404). -/
inductive RouteResult where
  | redirect (location : String)
  | notFound
  deriving DecidableEq

/-- Model of latest (src/blog.py, lines 136-147): redirect to
/post/{postId} of the first element of the date-sorted list; the
IndexError on an empty list is caught and becomes abort(404). -/
def latest (posts : List Post) : RouteResult :=
  match get_all_posts_by_date posts with
  | [] => RouteResult.notFound
  | p :: _ => RouteResult.redirect ("/post/" ++ p.postId)

/-- The fields of a post other than the body, as one tuple; used to
state that the rendering pipeline rewrites only the body. -/
def metaOf (p : Post) :
    String × String × List String × List String × Author × String × Int :=
  (p.postId, p.title, p.categories, p.tags, p.author, p.post_thumbnail, p.date)

/-- The preview computation of the index route (src/blog.py, lines
102-115): the full post list through the Query Cache, sorted by date
descending, previewed with the default of 3 posts.  Returns the posts
handed to the template and the Query Cache state after the call. -/
def index_route (render : String → String)
    (truncate_html_words : String → Nat → String)
    (table : List Post) (now : Nat) (cache : TTLCacheState Unit (List Post)) :
    List Post × TTLCacheState Unit (List Post) :=
  let ap := get_all_posts table now cache
  (preview_posts render truncate_html_words (get_all_posts_by_date ap.1) 3, ap.2.1)

/-- The preview computation of the categories route (src/blog.py,
lines 169-180): the attribute-contains scan on "categories" through the
Query Cache, previewed with 5 posts. -/
def categories_route (render : String → String)
    (truncate_html_words : String → Nat → String)
    (table : List Post) (now : Nat)
    (cache : TTLCacheState (AttrName × String) DBResponse) (category : String) :
    List Post × TTLCacheState (AttrName × String) DBResponse :=
  let posts := get_posts_by_attr_containing table now cache AttrName.categories category
  (preview_posts render truncate_html_words posts.1.Items 5, posts.2.1)

/-- The preview computation of the tags route (src/blog.py, lines
183-194): the attribute-contains scan on "tags" through the Query
Cache, previewed with 5 posts. -/
def tags_route (render : String → String)
    (truncate_html_words : String → Nat → String)
    (table : List Post) (now : Nat)
    (cache : TTLCacheState (AttrName × String) DBResponse) (tag : String) :
    List Post × TTLCacheState (AttrName × String) DBResponse :=
  let posts := get_posts_by_attr_containing table now cache AttrName.tags tag
  (preview_posts render truncate_html_words posts.1.Items 5, posts.2.1)

/-- First appearance order of the values of a list: the key order that
dict insertion order gives a Counter. -/
def firstSeen (l : List String) : List String :=
  l.foldl (fun acc s => if s ∈ acc then acc else acc ++ [s]) []

/-- A post with the given id and categories and empty remaining fields,
used for concrete instances. -/
def mkPost (id : String) (cats : List String) : Post :=
  { postId := id, title := "", body := "", categories := cats, tags := [],
    author := { name := "", email := "" }, post_thumbnail := "", date := 0 }

/-- The example of the specification: three posts whose categories are
the lists a b, a, and c. -/
def examplePosts : List Post :=
  [mkPost "p1" ["a", "b"], mkPost "p2" ["a"], mkPost "p3" ["c"]]

/-- Position of a request task inside the asyncache.cached wrapper:
ready (about to run the cache lookup), fetching (the lookup missed and
the task is awaiting the wrapped coroutine), finished. -/
inductive ScanTaskPc where
  | ready
  | fetching
  | finished
  deriving DecidableEq

/-- A burst of n concurrent requests going through one asyncache.cached
wrapper on the same uncached key: the cooperative scheduler runs the
tasks one atomic segment at a time.  cacheFilled says whether the key is
in the TTL cache; backendCalls counts invocations of the wrapped
coroutine, that is of the Storage Client. -/
structure ScanRace (n : Nat) where
  pcs : Fin n → ScanTaskPc
  cacheFilled : Bool
  backendCalls : Nat

/-- One scheduler step of task i through the asyncache.cached wrapper.
A ready task checks the cache: on a hit it finishes with the cached
value; on a miss it invokes the wrapped coroutine (one backend call) and
suspends awaiting it, without writing anything to the cache yet, since
the wrapper only stores after the await returns.  A fetching task
resumes, stores the result, and finishes. -/
def scanRaceStep {n : Nat} (s : ScanRace n) (i : Fin n) : ScanRace n :=
  match s.pcs i with
  | ScanTaskPc.ready =>
    if s.cacheFilled then
      { s with pcs := fun j => if j = i then ScanTaskPc.finished else s.pcs j }
    else
      { s with pcs := fun j => if j = i then ScanTaskPc.fetching else s.pcs j,
               backendCalls := s.backendCalls + 1 }
  | ScanTaskPc.fetching =>
    { s with pcs := fun j => if j = i then ScanTaskPc.finished else s.pcs j,
             cacheFilled := true }
  | ScanTaskPc.finished => s

/-- Run a schedule, a list of task choices, through scanRaceStep. -/
def scanRaceRun {n : Nat} (s : ScanRace n) (sched : List (Fin n)) : ScanRace n :=
  sched.foldl scanRaceStep s

/-- Initial state of a burst of n requests on one uncached key. -/
def scanRaceInit (n : Nat) : ScanRace n :=
  { pcs := fun _ => ScanTaskPc.ready, cacheFilled := false, backendCalls := 0 }

/-- Position of a request task inside the alru_cache wrapper: ready or
finished; there is no window between the miss check and the
reservation, because alru_cache creates the fetch task and stores its
future under the key synchronously before yielding. -/
inductive PointTaskPc where
  | ready
  | finished
  deriving DecidableEq

/-- A burst of n concurrent requests going through alru_cache on the
same uncached key.  backendVal is the value the Storage Client returns
for the key; reserved says whether the shared future is stored under the
key; results holds the value each finished caller received. -/
structure PointRace (n : Nat) (α : Type) where
  backendVal : α
  pcs : Fin n → PointTaskPc
  reserved : Bool
  backendCalls : Nat
  results : Fin n → Option α

/-- One scheduler step of task i through the alru_cache wrapper.  If
the key is not reserved, the task creates the backend fetch (one
backend call) and stores the shared future under the key in the same
atomic segment; it then receives the fetched value.  If the key is
reserved, the task awaits the shared future and receives the same
value, with no further backend call. -/
def pointRaceStep {n : Nat} {α : Type} (s : PointRace n α) (i : Fin n) : PointRace n α :=
  match s.pcs i with
  | PointTaskPc.ready =>
    if s.reserved then
      { s with pcs := fun j => if j = i then PointTaskPc.finished else s.pcs j,
               results := fun j => if j = i then some s.backendVal else s.results j }
    else
      { s with reserved := true, backendCalls := s.backendCalls + 1,
               pcs := fun j => if j = i then PointTaskPc.finished else s.pcs j,
               results := fun j => if j = i then some s.backendVal else s.results j }
  | PointTaskPc.finished => s

/-- Run a schedule through pointRaceStep. -/
def pointRaceRun {n : Nat} {α : Type} (s : PointRace n α) (sched : List (Fin n)) : PointRace n α :=
  sched.foldl pointRaceStep s

/-- Initial state of a burst of n requests on one uncached key whose
backend value is v. -/
def pointRaceInit (n : Nat) {α : Type} (v : α) : PointRace n α :=
  { backendVal := v, pcs := fun _ => PointTaskPc.ready, reserved := false,
    backendCalls := 0, results := fun _ => none }

/-! Theorems. -/

/-- Inserting at the front of the Point Cache and truncating to the
capacity of 56 keeps the new entry at the front. -/
theorem pointCache_take_cons (a : String × Option Post) (l : PointCache) :
    (a :: l).take 56 = a :: l.take 55 :=
  rfl

/-- C10: for every post dictionary p, the rendering and truncation
steps of the preview pipeline (body_markup and truncate_post) return a
dictionary equal to p at every key other than body: postId, title,
categories, tags, author, post_thumbnail and date are unchanged. -/
theorem body_markup_truncate_frame (render : String → String)
    (truncate_html_words : String → Nat → String) (p : Post) (m : Bool) (w : Nat) :
    ((body_markup render p m).postId = p.postId ∧
     (body_markup render p m).title = p.title ∧
     (body_markup render p m).categories = p.categories ∧
     (body_markup render p m).tags = p.tags ∧
     (body_markup render p m).author = p.author ∧
     (body_markup render p m).post_thumbnail = p.post_thumbnail ∧
     (body_markup render p m).date = p.date) ∧
    ((truncate_post truncate_html_words p w).postId = p.postId ∧
     (truncate_post truncate_html_words p w).title = p.title ∧
     (truncate_post truncate_html_words p w).categories = p.categories ∧
     (truncate_post truncate_html_words p w).tags = p.tags ∧
     (truncate_post truncate_html_words p w).author = p.author ∧
     (truncate_post truncate_html_words p w).post_thumbnail = p.post_thumbnail ∧
     (truncate_post truncate_html_words p w).date = p.date) :=
  ⟨⟨rfl, rfl, rfl, rfl, rfl, rfl, rfl⟩, ⟨rfl, rfl, rfl, rfl, rfl, rfl, rfl⟩⟩

/-- C9: preview selection returns exactly the first num_posts posts of
the given ordered list, in the given order with no re-sorting (fewer
when the list is shorter): the non-body fields of the preview are those
of posts.take num_posts in order and the length is the minimum of
num_posts and the list length; the index route selects with the default
of 3, the categories and tags routes with 5. -/
theorem preview_selection_spec :
    (∀ (render : String → String) (tr : String → Nat → String)
       (posts : List Post) (num_posts : Nat),
      (preview_posts render tr posts num_posts).map metaOf =
        (posts.take num_posts).map metaOf ∧
      (preview_posts render tr posts num_posts).length = min num_posts posts.length) ∧
    (∀ (render : String → String) (tr : String → Nat → String)
       (table : List Post) (now : Nat) cache,
      (index_route render tr table now cache).1 =
        preview_posts render tr (get_all_posts_by_date (get_all_posts table now cache).1) 3) ∧
    (∀ (render : String → String) (tr : String → Nat → String)
       (table : List Post) (now : Nat) cache category,
      (categories_route render tr table now cache category).1 =
        preview_posts render tr
          (get_posts_by_attr_containing table now cache AttrName.categories category).1.Items 5) ∧
    (∀ (render : String → String) (tr : String → Nat → String)
       (table : List Post) (now : Nat) cache tag,
      (tags_route render tr table now cache tag).1 =
        preview_posts render tr
          (get_posts_by_attr_containing table now cache AttrName.tags tag).1.Items 5) := by
  refine ⟨fun render tr posts num_posts => ⟨?_, ?_⟩, fun _ _ _ _ _ => rfl,
    fun _ _ _ _ _ _ => rfl, fun _ _ _ _ _ _ => rfl⟩
  · unfold preview_posts
    rw [List.map_map, List.map_map]
    exact List.map_congr_left fun a _ => rfl
  · simp [preview_posts]

/-- C7: the write path add_new_post assigns the current time as the new
post date, writes the full record to the Storage Client table, and
leaves the Point Cache and every Query Cache entirely unchanged. -/
theorem add_new_post_frame (s : SystemState) (now : Int) (post_id title body : String)
    (categories tags : List String)
    (post_thumbnail author_name author_email : String) :
    (add_new_post s now post_id title body categories tags post_thumbnail
        author_name author_email).1.pointCache = s.pointCache ∧
    (add_new_post s now post_id title body categories tags post_thumbnail
        author_name author_email).1.attrCache = s.attrCache ∧
    (add_new_post s now post_id title body categories tags post_thumbnail
        author_name author_email).1.allPostsCache = s.allPostsCache ∧
    (add_new_post s now post_id title body categories tags post_thumbnail
        author_name author_email).1.queryCache = s.queryCache ∧
    (add_new_post s now post_id title body categories tags post_thumbnail
        author_name author_email).2 =
      { postId := post_id, title := title, body := body, categories := categories,
        tags := tags, author := { name := author_name, email := author_email },
        post_thumbnail := post_thumbnail, date := now } ∧
    (add_new_post s now post_id title body categories tags post_thumbnail
        author_name author_email).2 ∈
      (add_new_post s now post_id title body categories tags post_thumbnail
        author_name author_email).1.table ∧
    (add_new_post s now post_id title body categories tags post_thumbnail
        author_name author_email).2.date = now := by
  refine ⟨rfl, rfl, rfl, rfl, rfl, ?_, rfl⟩
  simp [add_new_post, putItem]

/-- C3 counterexample: two concurrent requests that simultaneously
miss the Query Cache on the same key, run through the asyncache.cached
wrapper under the schedule that lets both run their cache check before
either stores, both complete, and the backend is invoked twice, not
exactly once. -/
theorem scan_cache_double_fetch :
    (∀ i, (scanRaceRun (scanRaceInit 2) [0, 1, 0, 1]).pcs i = ScanTaskPc.finished) ∧
    (scanRaceRun (scanRaceInit 2) [0, 1, 0, 1]).backendCalls = 2 ∧
    ¬ (scanRaceRun (scanRaceInit 2) [0, 1, 0, 1]).backendCalls = 1 := by
  decide

/-- One step of the alru_cache race preserves the invariant: the
backend value never changes, the number of backend calls is exactly one
once the key is reserved and zero before, and every finished task has
received the backend value, which also forces the key to be reserved. -/
theorem pointRaceStep_inv {n : Nat} {α : Type} (v : α) (s : PointRace n α) (t : Fin n)
    (h1 : s.backendVal = v)
    (h2 : s.backendCalls = if s.reserved then 1 else 0)
    (h3 : ∀ i, s.pcs i = PointTaskPc.finished →
      s.results i = some v ∧ s.reserved = true) :
    (pointRaceStep s t).backendVal = v ∧
    ((pointRaceStep s t).backendCalls =
      if (pointRaceStep s t).reserved then 1 else 0) ∧
    ∀ i, (pointRaceStep s t).pcs i = PointTaskPc.finished →
      (pointRaceStep s t).results i = some v ∧
      (pointRaceStep s t).reserved = true := by
  cases hpc : s.pcs t with
  | finished =>
    have hstep : pointRaceStep s t = s := by simp [pointRaceStep, hpc]
    rw [hstep]
    exact ⟨h1, h2, h3⟩
  | ready =>
    by_cases hr : s.reserved
    · have hstep : pointRaceStep s t =
        { s with pcs := fun j => if j = t then PointTaskPc.finished else s.pcs j,
                 results := fun j => if j = t then some s.backendVal else s.results j } := by
        simp [pointRaceStep, hpc, hr]
      rw [hstep]
      refine ⟨h1, by simpa using h2, ?_⟩
      intro i hi
      simp only at hi ⊢
      by_cases hit : i = t
      · simp [hit, h1, hr]
      · simp only [hit, if_false] at hi ⊢
        exact ⟨(h3 i hi).1, hr⟩
    · have hstep : pointRaceStep s t =
        { s with reserved := true, backendCalls := s.backendCalls + 1,
                 pcs := fun j => if j = t then PointTaskPc.finished else s.pcs j,
                 results := fun j => if j = t then some s.backendVal else s.results j } := by
        simp [pointRaceStep, hpc, hr]
      rw [hstep]
      refine ⟨h1, ?_, ?_⟩
      · simp only [hr, if_false] at h2
        simp [h2]
      · intro i hi
        simp only at hi ⊢
        by_cases hit : i = t
        · simp [hit, h1]
        · simp only [hit, if_false] at hi ⊢
          exact ⟨(h3 i hi).1, trivial⟩

/-- The invariant of pointRaceStep_inv holds after any schedule. -/
theorem pointRace_invariant {n : Nat} {α : Type} (v : α) (sched : List (Fin n))
    (s : PointRace n α)
    (h1 : s.backendVal = v)
    (h2 : s.backendCalls = if s.reserved then 1 else 0)
    (h3 : ∀ i, s.pcs i = PointTaskPc.finished →
      s.results i = some v ∧ s.reserved = true) :
    (pointRaceRun s sched).backendVal = v ∧
    (pointRaceRun s sched).backendCalls =
      (if (pointRaceRun s sched).reserved then 1 else 0) ∧
    ∀ i, (pointRaceRun s sched).pcs i = PointTaskPc.finished →
      (pointRaceRun s sched).results i = some v ∧
      (pointRaceRun s sched).reserved = true := by
  induction sched generalizing s with
  | nil => exact ⟨h1, h2, h3⟩
  | cons t rest ih =>
    have hstep := pointRaceStep_inv v s t h1 h2 h3
    exact ih (pointRaceStep s t) hstep.1 hstep.2.1 hstep.2.2

/-- C3 as amended: through the alru_cache wrapper of the Point Cache,
any number n of concurrent requests that simultaneously miss on the
same key, run under any schedule that completes all of them, invoke the
Storage Client point-get exactly once, and every caller receives the
result of that single fetch. -/
theorem point_cache_single_flight (n : Nat) (α : Type) (v : α) (sched : List (Fin n))
    (hn : 0 < n)
    (hdone : ∀ i, (pointRaceRun (pointRaceInit n v) sched).pcs i = PointTaskPc.finished) :
    (pointRaceRun (pointRaceInit n v) sched).backendCalls = 1 ∧
    ∀ i, (pointRaceRun (pointRaceInit n v) sched).results i = some v := by
  have hinv := pointRace_invariant v sched (pointRaceInit n v) rfl rfl
    (by intro i hi; simp [pointRaceInit] at hi)
  have hres : (pointRaceRun (pointRaceInit n v) sched).reserved = true :=
    (hinv.2.2 ⟨0, hn⟩ (hdone ⟨0, hn⟩)).2
  refine ⟨by rw [hinv.2.1, hres]; rfl, fun i => (hinv.2.2 i (hdone i)).1⟩

/-- Witness for the amended C3: two concurrent missing requests on one
key, with backend value 37, scheduled one after the other, produce one
backend call and both receive 37. -/
theorem point_cache_single_flight_witness :
    (pointRaceRun (pointRaceInit 2 (37 : Nat)) [0, 1]).backendCalls = 1 ∧
    ∀ i, (pointRaceRun (pointRaceInit 2 (37 : Nat)) [0, 1]).results i = some 37 :=
  point_cache_single_flight 2 Nat 37 [0, 1] (by decide) (by decide)

/-- C4: get_all_posts_by_date returns the full post list (a permutation
of its input) ordered by date descending, and the sort is stable: the
posts carrying any fixed date appear in the output in exactly the order
they have in the underlying unsorted list. -/
theorem get_all_posts_by_date_spec (posts : List Post) :
    (get_all_posts_by_date posts).Perm posts ∧
    (get_all_posts_by_date posts).Pairwise (fun x y => y.date ≤ x.date) ∧
    ∀ d : Int, (get_all_posts_by_date posts).filter (fun p => decide (p.date = d)) =
      posts.filter (fun p => decide (p.date = d)) := by
  have htrans : ∀ a b c : Post, dateDesc a b = true → dateDesc b c = true →
      dateDesc a c = true := by
    intro a b c hab hbc
    simp [dateDesc] at hab hbc ⊢
    omega
  have htotal : ∀ a b : Post, (dateDesc a b || dateDesc b a) = true := by
    intro a b
    simp [dateDesc]
    omega
  refine ⟨List.mergeSort_perm posts dateDesc, ?_, ?_⟩
  · have := List.sorted_mergeSort htrans htotal posts
    exact this.imp (by intro a b h; simpa [dateDesc] using h)
  · intro d
    have hsub : (posts.filter (fun p => decide (p.date = d))).Sublist posts :=
      List.filter_sublist posts
    have hpair : (posts.filter (fun p => decide (p.date = d))).Pairwise
        (fun a b => dateDesc a b = true) := by
      apply List.pairwise_of_forall_mem_list
      intro a ha b hb
      have ha2 := (List.mem_filter.mp ha).2
      have hb2 := (List.mem_filter.mp hb).2
      simp at ha2 hb2
      simp [dateDesc, ha2, hb2]
    have hsub2 : (posts.filter (fun p => decide (p.date = d))).Sublist
        (posts.mergeSort dateDesc) :=
      List.sublist_mergeSort htrans htotal hpair hsub
    have hsub3 : (posts.filter (fun p => decide (p.date = d))).Sublist
        ((posts.mergeSort dateDesc).filter (fun p => decide (p.date = d))) := by
      have := hsub2.filter (fun p => decide (p.date = d))
      simpa [List.filter_filter] using this
    have hlen : ((posts.mergeSort dateDesc).filter (fun p => decide (p.date = d))).length =
        (posts.filter (fun p => decide (p.date = d))).length :=
      ((List.mergeSort_perm posts dateDesc).filter _).length_eq
    exact ((hsub3.eq_of_length (hlen.symm)).symm : _)

/-- C8: latest redirects to the first element of the date-descending
sorted post list, and on an empty post set returns the explicit
not-found outcome (abort(404)) rather than an unhandled fault; on a
nonempty post set it never returns not-found. -/
theorem latest_spec :
    (latest [] = RouteResult.notFound) ∧
    (∀ (posts : List Post) (p : Post) (rest : List Post),
      get_all_posts_by_date posts = p :: rest →
      latest posts = RouteResult.redirect ("/post/" ++ p.postId)) ∧
    (∀ posts : List Post, posts ≠ [] → latest posts ≠ RouteResult.notFound) := by
  refine ⟨by simp [latest, get_all_posts_by_date], ?_, ?_⟩
  · intro posts p rest h
    simp [latest, h]
  · intro posts hne
    cases hs : get_all_posts_by_date posts with
    | nil =>
      exfalso
      apply hne
      have := List.mergeSort_perm posts dateDesc
      rw [show posts.mergeSort dateDesc = get_all_posts_by_date posts from rfl, hs] at this
      exact (List.perm_nil.mp this.symm)
    | cons p rest => simp [latest, hs]

/-- Witness for C8: on a singleton post set, latest redirects to the
post page of that post and is not the not-found outcome. -/
theorem latest_spec_witness :
    latest [mkPost "p1" ["a", "b"]] = RouteResult.redirect "/post/p1" ∧
    latest [mkPost "p1" ["a", "b"]] ≠ RouteResult.notFound :=
  ⟨latest_spec.2.1 [mkPost "p1" ["a", "b"]] (mkPost "p1" ["a", "b"]) []
      (by simp [get_all_posts_by_date, mkPost]),
   latest_spec.2.2 [mkPost "p1" ["a", "b"]] (by simp)⟩

/-- A call through the asyncache.cached wrapper that invoked the
backend returns the computed value and stores it with expiry
now + ttl. -/
theorem cachedCall_miss_eq {κ α : Type} [DecidableEq κ] (maxsize ttl now : Nat)
    (cache : TTLCacheState κ α) (k : κ) (v : α)
    (hm : (cachedCall maxsize ttl now cache k v).2.2 = true) :
    cachedCall maxsize ttl now cache k v = (v, ttlStore maxsize ttl now cache k v, true) := by
  unfold cachedCall at hm ⊢
  cases hf : cache.find? (fun e => decide (e.key = k)) with
  | some e =>
    simp only [hf] at hm ⊢
    by_cases he : e.expires < now
    · simp [he]
    · simp [he] at hm
  | none => simp only [hf]

/-- Reading a key strictly before its stored entry's TTL has elapsed is
a hit: the stored value is returned and the backend is not invoked. -/
theorem ttlStore_read_fresh {κ α : Type} [DecidableEq κ] (maxsize ttl now now2 : Nat)
    (cache : TTLCacheState κ α) (k : κ) (v v2 : α)
    (hmax : 0 < maxsize) (hfresh : now2 < now + ttl) :
    (cachedCall maxsize ttl now2 (ttlStore maxsize ttl now cache k v) k v2).1 = v ∧
    (cachedCall maxsize ttl now2 (ttlStore maxsize ttl now cache k v) k v2).2.2 = false := by
  obtain ⟨m, rfl⟩ : ∃ m, maxsize = m + 1 := ⟨maxsize - 1, by omega⟩
  have hstore : ttlStore (m + 1) ttl now cache k v =
      (⟨k, v, now + ttl⟩ : TTLEntry κ α) ::
        (cache.filter
          (fun x => !(decide (x.key = k)) && !(decide (x.expires < now)))).take m := by
    unfold ttlStore
    exact List.take_succ_cons
  rw [hstore]
  unfold cachedCall
  rw [List.find?_cons_of_pos _ (by simp)]
  have hnotexp : ¬ (now + ttl < now2) := by omega
  simp [hnotexp]

/-- Reading a key strictly after its stored entry's TTL has elapsed is
a hard miss: the value is recomputed by a fresh backend call. -/
theorem ttlStore_read_expired {κ α : Type} [DecidableEq κ] (maxsize ttl now now2 : Nat)
    (cache : TTLCacheState κ α) (k : κ) (v v2 : α)
    (hmax : 0 < maxsize) (hexp : now + ttl < now2) :
    (cachedCall maxsize ttl now2 (ttlStore maxsize ttl now cache k v) k v2).1 = v2 ∧
    (cachedCall maxsize ttl now2 (ttlStore maxsize ttl now cache k v) k v2).2.2 = true := by
  obtain ⟨m, rfl⟩ : ∃ m, maxsize = m + 1 := ⟨maxsize - 1, by omega⟩
  have hstore : ttlStore (m + 1) ttl now cache k v =
      (⟨k, v, now + ttl⟩ : TTLEntry κ α) ::
        (cache.filter
          (fun x => !(decide (x.key = k)) && !(decide (x.expires < now)))).take m := by
    unfold ttlStore
    exact List.take_succ_cons
  rw [hstore]
  unfold cachedCall
  rw [List.find?_cons_of_pos _ (by simp)]
  simp [hexp]

/-- C2: every Query Cache entry created by a backend call at time t is
served from the cache at any read strictly before its TTL has elapsed,
and is a hard miss recomputed by a fresh backend call at any read
strictly after; the TTL is 600 seconds for the attribute-contains scan
and the full scan and 6000 seconds for the key-equality query. -/
theorem query_cache_ttl_spec :
    (∀ (table table2 : List Post) (t t2 : Nat) cache (a : AttrName) (value : String),
      (get_posts_by_attr_containing table t cache a value).2.2 = true →
      (t2 < t + 600 →
        (get_posts_by_attr_containing table2 t2
          (get_posts_by_attr_containing table t cache a value).2.1 a value).1 =
            scanContains table a value ∧
        (get_posts_by_attr_containing table2 t2
          (get_posts_by_attr_containing table t cache a value).2.1 a value).2.2 = false) ∧
      (t + 600 < t2 →
        (get_posts_by_attr_containing table2 t2
          (get_posts_by_attr_containing table t cache a value).2.1 a value).1 =
            scanContains table2 a value ∧
        (get_posts_by_attr_containing table2 t2
          (get_posts_by_attr_containing table t cache a value).2.1 a value).2.2 = true)) ∧
    (∀ (table table2 : List Post) (t t2 : Nat) cache,
      (get_all_posts table t cache).2.2 = true →
      (t2 < t + 600 →
        (get_all_posts table2 t2 (get_all_posts table t cache).2.1).1 = scanItems table ∧
        (get_all_posts table2 t2 (get_all_posts table t cache).2.1).2.2 = false) ∧
      (t + 600 < t2 →
        (get_all_posts table2 t2 (get_all_posts table t cache).2.1).1 = scanItems table2 ∧
        (get_all_posts table2 t2 (get_all_posts table t cache).2.1).2.2 = true)) ∧
    (∀ (table table2 : List Post) (t t2 : Nat) cache (key value : String),
      (query_table table t cache key value).2.2 = true →
      (t2 < t + 6000 →
        (query_table table2 t2 (query_table table t cache key value).2.1 key value).1 =
          keyEquals table key value ∧
        (query_table table2 t2 (query_table table t cache key value).2.1 key value).2.2 = false) ∧
      (t + 6000 < t2 →
        (query_table table2 t2 (query_table table t cache key value).2.1 key value).1 =
          keyEquals table2 key value ∧
        (query_table table2 t2 (query_table table t cache key value).2.1 key value).2.2 = true)) := by
  refine ⟨?_, ?_, ?_⟩
  · intro table table2 t t2 cache a value hm
    unfold get_posts_by_attr_containing at hm ⊢
    rw [cachedCall_miss_eq 128 600 t cache (a, value) (scanContains table a value) hm]
    constructor
    · intro hfresh
      exact ttlStore_read_fresh 128 600 t t2 cache (a, value)
        (scanContains table a value) (scanContains table2 a value) (by norm_num) hfresh
    · intro hexp
      exact ttlStore_read_expired 128 600 t t2 cache (a, value)
        (scanContains table a value) (scanContains table2 a value) (by norm_num) hexp
  · intro table table2 t t2 cache hm
    unfold get_all_posts at hm ⊢
    rw [cachedCall_miss_eq 128 600 t cache () (scanItems table) hm]
    constructor
    · intro hfresh
      exact ttlStore_read_fresh 128 600 t t2 cache ()
        (scanItems table) (scanItems table2) (by norm_num) hfresh
    · intro hexp
      exact ttlStore_read_expired 128 600 t t2 cache ()
        (scanItems table) (scanItems table2) (by norm_num) hexp
  · intro table table2 t t2 cache key value hm
    unfold query_table at hm ⊢
    rw [cachedCall_miss_eq 128 6000 t cache (key, value) (keyEquals table key value) hm]
    constructor
    · intro hfresh
      exact ttlStore_read_fresh 128 6000 t t2 cache (key, value)
        (keyEquals table key value) (keyEquals table2 key value) (by norm_num) hfresh
    · intro hexp
      exact ttlStore_read_expired 128 6000 t t2 cache (key, value)
        (keyEquals table key value) (keyEquals table2 key value) (by norm_num) hexp

/-- Witness for C2: on an initially empty cache, the scan filled at
time 0 is a hit at time 599, the full scan filled at time 0 is a hit at
599, and the key-equality query filled at time 0 is a hard miss at
time 6001. -/
theorem query_cache_ttl_spec_witness :
    (get_posts_by_attr_containing [] 599
      (get_posts_by_attr_containing [] 0 [] AttrName.categories "tech").2.1
      AttrName.categories "tech").2.2 = false ∧
    (get_all_posts [] 599 (get_all_posts [] 0 []).2.1).2.2 = false ∧
    (query_table [] 6001 (query_table [] 0 [] "postId" "demo").2.1 "postId" "demo").2.2 = true :=
  ⟨((query_cache_ttl_spec.1 [] [] 0 599 [] AttrName.categories "tech" rfl).1 (by norm_num)).2,
   ((query_cache_ttl_spec.2.1 [] [] 0 599 [] rfl).1 (by norm_num)).2,
   ((query_cache_ttl_spec.2.2 [] [] 0 6001 [] "postId" "demo" rfl).2 (by norm_num)).2⟩

/-- C1: after a point lookup that returned data (a post, or the
explicit not-found outcome none), an immediately following lookup of
the same id returns the identical data and does not invoke the Storage
Client. -/
theorem get_post_by_id_memoized (fetch : String → Except BackendError (Option Post))
    (cache : PointCache) (post_id : String) (v : Option Post)
    (h : (get_post_by_id fetch cache post_id).1 = Except.ok v) :
    (get_post_by_id fetch (get_post_by_id fetch cache post_id).2.1 post_id).1 =
      Except.ok v ∧
    (get_post_by_id fetch (get_post_by_id fetch cache post_id).2.1 post_id).2.2 = false := by
  unfold get_post_by_id at h ⊢
  cases hf : cache.find? (fun e => decide (e.1 = post_id)) with
  | some e =>
    have hkey : e.1 = post_id := by simpa using List.find?_some hf
    simp only [hf] at h ⊢
    simp only [Except.ok.injEq] at h
    rw [List.find?_cons_of_pos _ (by simp [hkey])]
    simp [h]
  | none =>
    simp only [hf] at h ⊢
    cases hb : fetch post_id with
    | ok w =>
      simp only [hb] at h ⊢
      simp only [Except.ok.injEq] at h
      rw [pointCache_take_cons]
      rw [List.find?_cons_of_pos _ (by simp)]
      simp [h]
    | error err => simp [hb] at h

/-- Witness for C1: a first lookup that found nothing stores the
not-found outcome, and the second lookup returns it without invoking
the Storage Client. -/
theorem get_post_by_id_memoized_witness :
    (get_post_by_id (fun _ => Except.ok (none : Option Post))
      (get_post_by_id (fun _ => Except.ok (none : Option Post)) [] "demo").2.1 "demo").1 =
        Except.ok (none : Option Post) ∧
    (get_post_by_id (fun _ => Except.ok (none : Option Post))
      (get_post_by_id (fun _ => Except.ok (none : Option Post)) [] "demo").2.1 "demo").2.2 =
        false :=
  get_post_by_id_memoized (fun _ => Except.ok none) [] "demo" none rfl

/-- C5: a Storage Client failure during a point-lookup miss is not
stored: the error propagates, the cache is unchanged, and the next
request for the same id invokes the backend again; a successful miss,
including the not-found outcome none, is stored under the id; and a
Query Cache miss stores the computed response, including an empty
Items list, with its TTL. -/
theorem backend_failure_not_cached :
    (∀ (fetch : String → Except BackendError (Option Post)) (cache : PointCache)
       (post_id : String) (err : BackendError),
      cache.find? (fun e => decide (e.1 = post_id)) = none →
      fetch post_id = Except.error err →
      get_post_by_id fetch cache post_id = (Except.error err, cache, true) ∧
      (get_post_by_id fetch (get_post_by_id fetch cache post_id).2.1 post_id).2.2 = true) ∧
    (∀ (fetch : String → Except BackendError (Option Post)) (cache : PointCache)
       (post_id : String) (v : Option Post),
      cache.find? (fun e => decide (e.1 = post_id)) = none →
      fetch post_id = Except.ok v →
      (get_post_by_id fetch cache post_id).1 = Except.ok v ∧
      (post_id, v) ∈ (get_post_by_id fetch cache post_id).2.1) ∧
    (∀ (table : List Post) (now : Nat) cache (a : AttrName) (value : String),
      (get_posts_by_attr_containing table now cache a value).2.2 = true →
      (⟨(a, value), scanContains table a value, now + 600⟩ :
          TTLEntry (AttrName × String) DBResponse) ∈
        (get_posts_by_attr_containing table now cache a value).2.1) := by
  refine ⟨?_, ?_, ?_⟩
  · intro fetch cache post_id err hmiss herr
    have h1 : get_post_by_id fetch cache post_id = (Except.error err, cache, true) := by
      unfold get_post_by_id
      simp only [hmiss, herr]
    refine ⟨h1, ?_⟩
    rw [h1]
    unfold get_post_by_id
    simp only [hmiss, herr]
  · intro fetch cache post_id v hmiss hok
    unfold get_post_by_id
    simp only [hmiss, hok]
    refine ⟨by simp, ?_⟩
    rw [pointCache_take_cons]
    exact List.mem_cons_self _ _
  · intro table now cache a value hm
    unfold get_posts_by_attr_containing at hm ⊢
    rw [cachedCall_miss_eq 128 600 now cache (a, value) (scanContains table a value) hm]
    show _ ∈ ttlStore 128 600 now cache (a, value) (scanContains table a value)
    unfold ttlStore
    rw [List.take_succ_cons]
    exact List.mem_cons_self _ _

/-- Witness for C5: on an empty cache, a failing fetch propagates the
backend error and leaves the cache empty, while a fetch returning the
not-found outcome stores that outcome under the id. -/
theorem backend_failure_not_cached_witness :
    get_post_by_id (fun _ => Except.error BackendError.backendError) [] "x" =
      (Except.error BackendError.backendError, [], true) ∧
    ("x", (none : Option Post)) ∈
      (get_post_by_id (fun _ => Except.ok (none : Option Post)) [] "x").2.1 :=
  ⟨(backend_failure_not_cached.1 (fun _ => Except.error BackendError.backendError)
      [] "x" BackendError.backendError rfl rfl).1,
   (backend_failure_not_cached.2.1 (fun _ => Except.ok none) [] "x" none rfl rfl).2⟩

/-- Feeding the counter a list extended by one element is one
counterAdd step on the counter of the list. -/
theorem counterItems_append (l : List String) (x : String) :
    counterItems (l ++ [x]) = counterAdd (counterItems l) x := by
  simp [counterItems, List.foldl_append]

/-- First appearance order of a list extended by one element. -/
theorem firstSeen_append (l : List String) (x : String) :
    firstSeen (l ++ [x]) =
      if x ∈ firstSeen l then firstSeen l else firstSeen l ++ [x] := by
  simp [firstSeen, List.foldl_append]

/-- A value occurs in the first appearance order exactly when it occurs
in the list. -/
theorem mem_firstSeen (l : List String) (x : String) : x ∈ firstSeen l ↔ x ∈ l := by
  induction l using List.reverseRecOn with
  | nil => simp [firstSeen]
  | append_singleton l a ih =>
    rw [firstSeen_append]
    by_cases h : a ∈ firstSeen l
    · rw [if_pos h]
      simp only [List.mem_append, List.mem_singleton]
      constructor
      · intro hx
        exact Or.inl (ih.mp hx)
      · intro hx
        rcases hx with hx | rfl
        · exact ih.mpr hx
        · exact h
    · rw [if_neg h]
      simp only [List.mem_append, List.mem_singleton, ih]

/-- One counterAdd step extends the key sequence exactly like one step
of the first appearance order. -/
theorem counterAdd_keys (acc : List (String × Nat)) (x : String) :
    (counterAdd acc x).map Prod.fst =
      if x ∈ acc.map Prod.fst then acc.map Prod.fst else acc.map Prod.fst ++ [x] := by
  unfold counterAdd
  by_cases h : acc.any (fun e => decide (e.1 = x))
  · have hmem : x ∈ acc.map Prod.fst := by
      rcases List.any_eq_true.mp h with ⟨e, he, hx⟩
      simp only [decide_eq_true_eq] at hx
      exact List.mem_map.mpr ⟨e, he, hx⟩
    rw [if_pos h, if_pos hmem, List.map_map]
    apply List.map_congr_left
    intro e _
    by_cases hex : e.1 = x <;> simp [hex]
  · have hmem : x ∉ acc.map Prod.fst := by
      intro hc
      rcases List.mem_map.mp hc with ⟨e, he, hx⟩
      exact h (List.any_eq_true.mpr ⟨e, he, by simp [hx]⟩)
    rw [if_neg h, if_neg hmem, List.map_append]
    rfl

/-- The counter of a list keys its pairs in first appearance order and
counts each key by its number of occurrences in the list. -/
theorem counterItems_spec (l : List String) :
    (counterItems l).map Prod.fst = firstSeen l ∧
    ∀ pr ∈ counterItems l, pr.2 = l.count pr.1 := by
  induction l using List.reverseRecOn with
  | nil => exact ⟨rfl, by simp [counterItems]⟩
  | append_singleton l x ih =>
    obtain ⟨ihk, ihc⟩ := ih
    refine ⟨by rw [counterItems_append, counterAdd_keys, ihk, firstSeen_append], ?_⟩
    intro pr hpr
    rw [counterItems_append] at hpr
    unfold counterAdd at hpr
    by_cases h : (counterItems l).any (fun e => decide (e.1 = x))
    · rw [if_pos h] at hpr
      rcases List.mem_map.mp hpr with ⟨e, he, heq⟩
      by_cases hex : e.1 = x
      · rw [if_pos hex] at heq
        subst heq
        show e.2 + 1 = (l ++ [x]).count e.1
        rw [List.count_append, ihc e he, hex, List.count_singleton]
        simp
      · rw [if_neg hex] at heq
        subst heq
        rw [List.count_append, ihc e he, List.count_singleton]
        have : ¬ (x == e.1) = true := by
          simp only [beq_iff_eq]
          intro hc
          exact hex hc.symm
        rw [if_neg this]
        rfl
    · rw [if_neg h] at hpr
      rcases List.mem_append.mp hpr with hin | hone
      · have hkey : ¬ pr.1 = x := by
          intro hc
          exact h (List.any_eq_true.mpr ⟨pr, hin, by simp [hc]⟩)
        rw [List.count_append, ihc pr hin, List.count_singleton]
        have : ¬ (x == pr.1) = true := by
          simp only [beq_iff_eq]
          intro hc
          exact hkey hc.symm
        rw [if_neg this]
        rfl
      · have hpr2 : pr = (x, 1) := by simpa using hone
        subst hpr2
        have hnotl : x ∉ l := by
          intro hc
          have hfs : x ∈ firstSeen l := (mem_firstSeen l x).mpr hc
          rw [← ihk] at hfs
          rcases List.mem_map.mp hfs with ⟨e, he, hx⟩
          exact h (List.any_eq_true.mpr ⟨e, he, by simp [hx]⟩)
        show (1 : Nat) = (l ++ [x]).count x
        rw [List.count_append, List.count_eq_zero.mpr hnotl, List.count_singleton]
        simp

/-- C6: the category frequency count flattens the categories sequences
of all posts into a single list and emits one name and count pair per
distinct value, where the count is the number of occurrences of that
value across all posts and the pairs are ordered by first appearance;
in particular posts with categories a b, a, and c yield a count of 2
for a and 1 for b and c, with a before b before c. -/
theorem category_counter_spec (d : List Post) :
    (category_counter d).map Prod.fst = firstSeen (flatten_categories d) ∧
    (∀ pr ∈ category_counter d, pr.2 = (flatten_categories d).count pr.1) ∧
    category_counter examplePosts = [("a", 2), ("b", 1), ("c", 1)] := by
  refine ⟨(counterItems_spec (flatten_categories d)).1,
    (counterItems_spec (flatten_categories d)).2, by decide⟩

/-- Witness for C6: on the example posts the key order is the first
appearance order of the flattened categories and the count of a is its
number of occurrences. -/
theorem category_counter_spec_witness :
    (category_counter examplePosts).map Prod.fst =
      firstSeen (flatten_categories examplePosts) ∧
    (2 : Nat) = (flatten_categories examplePosts).count "a" :=
  ⟨(category_counter_spec examplePosts).1,
   (category_counter_spec examplePosts).2.1 ("a", 2) (by decide)⟩
